import Mathlib

/-!
Shallow embedding of the inventory HTTP service (`src/main.js`, with the
swagger-annotated variant in `src/unnamed/part_000` agreeing on all embedded
logic).  The persisted state is a single JSON file holding the full list of
inventory records; every handler reads the whole file, optionally mutates the
list in memory, and writes the whole file back.  File-system success or
failure of the write is modelled by an explicit boolean, and the persisted
file by an explicit `FileState`.
-/

namespace Inventory

/-- One inventory record, as persisted in `inventory.json`.
`photo_filename` is `none` for the JSON `null`; `created_at` is the
ISO timestamp string set at creation (`main.js` line 121). -/
structure Record where
  id : Int
  inventory_name : String
  description : String
  photo_filename : Option String
  created_at : String
deriving DecidableEq

/-- A record as serialized in a response, together with the derived
`photo_url` field added by the list/get/search handlers. -/
structure ItemView where
  id : Int
  inventory_name : String
  description : String
  photo_filename : Option String
  created_at : String
  photo_url : Option String
deriving DecidableEq

/-- The persisted `inventory.json` file: absent, present but unparsable,
or a parsed list of records. -/
inductive FileState where
  | absent
  | corrupt
  | stored (l : List Record)
deriving DecidableEq

/-- Embeds `readInventory` (`main.js` lines 20-28): returns the parsed list, and the
empty list when the file is absent or `JSON.parse` throws. -/
def readInventory : FileState → List Record
  | .stored l => l
  | _ => []

/-- JavaScript truthiness of a string-or-undefined/null value:
`undefined`, `null` and `""` are falsy, every other string is truthy. -/
def truthyStr : Option String → Bool
  | none => false
  | some s => !(s == "")

/-- Embeds `Math.max(...ids)` over a nonempty list (head as seed); the `[]` case is
never reached by `getNextId`. -/
def maxIds : List Int → Int
  | [] => 0
  | x :: xs => xs.foldl max x

/-- Embeds `getNextId` (`main.js` lines 30-34): `1` on the empty collection,
otherwise the maximum existing id plus one. -/
def getNextId (l : List Record) : Int :=
  if l.isEmpty then 1 else maxIds (l.map Record.id) + 1

/-- Value of a hexadecimal digit character, if it is one. -/
def hexVal (c : Char) : Option Nat :=
  if c.isDigit then some (c.toNat - 48)
  else if 'a' ≤ c ∧ c ≤ 'f' then some (c.toNat - 87)
  else if 'A' ≤ c ∧ c ≤ 'F' then some (c.toNat - 55)
  else none

/-- Accumulate the longest leading run of digits of the given base;
`none` when no digit at all was consumed (JavaScript `NaN`). -/
def takeDigits (base : Nat) : List Char → Nat → Bool → Option Nat
  | [], acc, seen => if seen then some acc else none
  | c :: cs, acc, seen =>
    match hexVal c with
    | some v =>
      if v < base then takeDigits base cs (acc * base + v) true
      else if seen then some acc else none
    | none => if seen then some acc else none

/-- JavaScript `parseInt(s)` with no radix argument: skip leading
whitespace, optional sign, optional `0x`/`0X` hex marker, then the longest
leading digit run; `none` models `NaN` (no digits at all). -/
def jsParseInt (s : String) : Option Int :=
  let cs0 := s.data.dropWhile fun c => c = ' ' ∨ c = '\t' ∨ c = '\n' ∨ c = '\r'
  let sgn : Bool × List Char :=
    match cs0 with
    | '-' :: rest => (true, rest)
    | '+' :: rest => (false, rest)
    | _ => (false, cs0)
  let hex : Nat × List Char :=
    match sgn.2 with
    | '0' :: 'x' :: rest => (16, rest)
    | '0' :: 'X' :: rest => (16, rest)
    | _ => (10, sgn.2)
  match takeDigits hex.1 hex.2 0 false with
  | none => none
  | some n => some (if sgn.1 then -(n : Int) else (n : Int))

/-- Embeds `inventory.find((item) => item.id === parseInt(id))`: a `NaN` parse
result (`none`) compares unequal to every stored id. -/
def findItem (l : List Record) (idStr : String) : Option Record :=
  match jsParseInt idStr with
  | none => none
  | some n => l.find? fun r => r.id == n

/-- Embeds `inventory.findIndex((item) => item.id === parseInt(id))` together with
the record at the found index (`inventory[itemIndex]`). -/
def findPairById (n : Int) : List Record → Option (Nat × Record)
  | [] => none
  | r :: rs =>
    if r.id == n then some (0, r)
    else (findPairById n rs).map fun p => (p.1 + 1, p.2)

/-- The JSON body a handler replies with, tagged with its HTTP status. -/
inductive HResult where
  | err (status : Nat) (msg : String)
  | item (status : Nat) (v : ItemView)
  | list (vs : List ItemView)
  | done (status : Nat) (message : String) (r : Record)
  | photo (filename : String)
deriving DecidableEq

/-- HTTP status of a handler result (`.list` and `.photo` are always 200). -/
def HResult.statusCode : HResult → Nat
  | .err s _ => s
  | .item s _ => s
  | .list _ => 200
  | .done s _ _ => s
  | .photo _ => 200

/-- The single item view of a response, when the response carries one. -/
def HResult.itemView : HResult → Option ItemView
  | .item _ v => some v
  | _ => none

/-- The `description` field of a single-item response body. -/
def HResult.itemDesc : HResult → Option String
  | .item _ v => some v.description
  | _ => none

/-- The array body of a list response (empty for any other response). -/
def HResult.listViews : HResult → List ItemView
  | .list vs => vs
  | _ => []

/-- The `inventory` record of a `{message, inventory}` mutation response. -/
def HResult.doneRec : HResult → Option Record
  | .done _ _ r => some r
  | _ => none

/-- Derived photo URL (`main.js` lines 141, 156, 300):
`item.photo_filename ? "/inventory/" + id + "/photo" : null`; note the JS
truthiness test, under which the empty string also yields `null`. -/
def photoUrl (r : Record) : Option String :=
  if truthyStr r.photo_filename then
    some ("/inventory/" ++ toString r.id ++ "/photo")
  else none

/-- A record extended with its derived `photo_url`, as responses send it. -/
def toView (r : Record) : ItemView :=
  { id := r.id, inventory_name := r.inventory_name,
    description := r.description, photo_filename := r.photo_filename,
    created_at := r.created_at, photo_url := photoUrl r }

/-- Embeds `POST /register` (`main.js` lines 108-134).  `wok` is whether the
`writeInventory` call succeeds; `invName`/`descr` are the form fields
(`none` = absent), `photoFile` the multer-generated filename when a photo
was uploaded, `now` the creation timestamp string. -/
def registerHandler (fs : FileState) (wok : Bool)
    (invName descr photoFile : Option String) (now : String) :
    HResult × FileState :=
  if truthyStr invName = false then
    (.err 400 "Name is required", fs)
  else
    let l := readInventory fs
    let newItem : Record :=
      { id := getNextId (readInventory fs)
        inventory_name := invName.getD ""
        description := descr.getD ""
        photo_filename := photoFile
        created_at := now }
    let l2 := l ++ [newItem]
    if wok then (.done 201 "Device registered successfully" newItem, .stored l2)
    else (.err 500 "Data save error", fs)

/-- Embeds `GET /inventory` (`main.js` lines 136-145): every record mapped to its
view with the derived photo URL. -/
def listHandler (fs : FileState) : HResult × FileState :=
  (.list ((readInventory fs).map toView), fs)

/-- Embeds `GET /inventory/:id` (`main.js` lines 147-159). -/
def getOneHandler (fs : FileState) (idStr : String) : HResult × FileState :=
  match findItem (readInventory fs) idStr with
  | none => (.err 404 "Device not found", fs)
  | some r => (.item 200 (toView r), fs)

/-- Embeds `PUT /inventory/:id` (`main.js` lines 161-187): a body field overwrites
the record field exactly when it is not `undefined` (so the empty string
still overwrites). -/
def updateHandler (fs : FileState) (wok : Bool) (idStr : String)
    (invName descr : Option String) : HResult × FileState :=
  let l := readInventory fs
  match jsParseInt idStr with
  | none => (.err 404 "Device not found", fs)
  | some n =>
    match findPairById n l with
    | none => (.err 404 "Device not found", fs)
    | some (i, r) =>
      let r2 : Record :=
        { r with
          inventory_name :=
            match invName with
            | none => r.inventory_name
            | some v => v
          description :=
            match descr with
            | none => r.description
            | some v => v }
      let l2 := l.set i r2
      if wok then (.done 200 "Device updated successfully" r2, .stored l2)
      else (.err 500 "Data save error", fs)

/-- Embeds `GET /inventory/:id/photo` (`main.js` lines 189-207); `photoOnDisk`
abstracts `fs.access` on the photo directory. -/
def getPhotoHandler (fs : FileState) (photoOnDisk : String → Bool)
    (idStr : String) : HResult × FileState :=
  match findItem (readInventory fs) idStr with
  | none => (.err 404 "Photo not found", fs)
  | some r =>
    if truthyStr r.photo_filename = false then
      (.err 404 "Photo not found", fs)
    else if photoOnDisk (r.photo_filename.getD "") then
      (.photo (r.photo_filename.getD ""), fs)
    else (.err 404 "Photo file not found", fs)

/-- Embeds `PUT /inventory/:id/photo` (`main.js` lines 209-242); `file` is the
multer-generated filename of the uploaded photo, if one was sent. -/
def putPhotoHandler (fs : FileState) (wok : Bool) (idStr : String)
    (file : Option String) : HResult × FileState :=
  match file with
  | none => (.err 400 "No photo provided", fs)
  | some fname =>
    let l := readInventory fs
    match jsParseInt idStr with
    | none => (.err 404 "Device not found", fs)
    | some n =>
      match findPairById n l with
      | none => (.err 404 "Device not found", fs)
      | some (i, r) =>
        let r2 : Record := { r with photo_filename := some fname }
        let l2 := l.set i r2
        if wok then (.done 200 "Photo updated successfully" r2, .stored l2)
        else (.err 500 "Data save error", fs)

/-- Embeds `DELETE /inventory/:id` (`main.js` lines 244-277). -/
def deleteHandler (fs : FileState) (wok : Bool) (idStr : String) :
    HResult × FileState :=
  let l := readInventory fs
  match jsParseInt idStr with
  | none => (.err 404 "Device not found", fs)
  | some n =>
    match findPairById n l with
    | none => (.err 404 "Device not found", fs)
    | some (i, r) =>
      let l2 := l.eraseIdx i
      if wok then (.done 200 "Device deleted successfully" r, .stored l2)
      else (.err 500 "Data save error", fs)

/-- Embeds `POST /search` (`main.js` lines 279-303): on a hit, a copy of the record
is answered; when `has_photo` is the literal string `"true"` and the record
has a (truthy) photo filename, a photo-reference marker is appended to the
copy's description.  The store is never written. -/
def searchHandler (fs : FileState) (idField hasPhoto : Option String) :
    HResult × FileState :=
  if truthyStr idField = false then
    (.err 400 "ID is required", fs)
  else
    match findItem (readInventory fs) (idField.getD "") with
    | none => (.err 404 "Device not found", fs)
    | some r =>
      let descr :=
        if hasPhoto == some "true" && truthyStr r.photo_filename then
          r.description ++ "\n[Photo: /inventory/" ++ toString r.id ++ "/photo]"
        else r.description
      (.item 200 { toView r with description := descr }, fs)

/-- Multer rejection causes (`main.js` lines 73-85): the 5 MiB
`fileSize` limit (a `MulterError` with code `LIMIT_FILE_SIZE`) and the
`fileFilter` plain `Error "Only images are allowed"`. -/
inductive UploadError where
  | limitFileSize
  | onlyImages
deriving DecidableEq

/-- Embeds `file.mimetype.startsWith("image/")`, the `fileFilter` test,
expressed on the character list of the MIME type string. -/
def mimeIsImage (mimetype : String) : Bool :=
  List.isPrefixOf "image/".data mimetype.data

/-- Outcome of the multer upload layer on a file of the given byte size and
declared MIME type.  The `fileFilter` runs when the part header arrives, so
a non-image type is rejected before the size limit can trigger. -/
def checkUpload (size : Nat) (mimetype : String) : Option UploadError :=
  if mimeIsImage mimetype = false then some .onlyImages
  else if 5 * 1024 * 1024 < size then some .limitFileSize
  else none

/-- The dedicated multer error middleware (`main.js` lines 91-98): it
answers 400 only for `LIMIT_FILE_SIZE`; every other error is passed on
with `next(error)` (`none`). -/
def multerErrorMiddleware : UploadError → Option (Nat × String)
  | .limitFileSize => some (400, "File too large. Maximum 5MB")
  | .onlyImages => none

/-- An Express middleware layer, as far as error dispatch is concerned:
an error-handling layer (a 4-parameter handler) or a normal layer (2 or
3 parameters), which Express skips while an error is being dispatched. -/
inductive Layer where
  | errorware (h : UploadError → Option (Nat × String))
  | normal

/-- Forward-only Express error dispatch: an error passed to `next(error)`
at some layer is offered only to the error-handling layers strictly after
it in registration order; the first that answers produces the response,
and when none does, the default error handler replies 500 (a
`MulterError` carries no `status`/`statusCode` field). -/
def dispatchError : List Layer → UploadError → Nat × String
  | [], _ => (500, "Internal Server Error")
  | .errorware h :: rest, e =>
    match h e with
    | some r => r
    | none => dispatchError rest e
  | .normal :: rest, e => dispatchError rest e

/-- The layers registered after `POST /register` (`main.js` line 108):
the seven remaining routes (lines 136, 147, 161, 189, 209, 244, 279) and
the final 2-argument 405 catch-all (line 305).  The multer error
middleware (lines 91-98) is registered BEFORE the routes, so it is not
among them, and none of these layers is an error-handling layer. -/
def layersAfterRegister : List Layer :=
  [.normal, .normal, .normal, .normal, .normal, .normal, .normal, .normal]

/-- The layers registered after `PUT /inventory/:id/photo` (`main.js`
line 209): the delete and search routes (lines 244, 279) and the
2-argument 405 catch-all (line 305) — again no error-handling layer. -/
def layersAfterPhotoPut : List Layer :=
  [.normal, .normal, .normal]

/-- Response to an upload error raised in `POST /register`'s multer
layer: the error is dispatched only through the layers registered after
that route, so the middleware of `main.js` lines 91-98 is never consulted
and the Express default error handler answers 500.  (The photo-put
route's suffix `layersAfterPhotoPut` dispatches identically.) -/
def uploadRejection (e : UploadError) : Nat × String :=
  dispatchError layersAfterRegister e

/-- One client operation against the service (read routes included); the
boolean of each mutating operation is whether its `writeInventory`
succeeds, the strings are the request fields. -/
inductive Op where
  | register (invName descr photoFile : Option String) (now : String) (wok : Bool)
  | update (idStr : String) (invName descr : Option String) (wok : Bool)
  | putPhoto (idStr : String) (file : Option String) (wok : Bool)
  | remove (idStr : String) (wok : Bool)
  | listAll
  | getOne (idStr : String)
  | search (idField hasPhoto : Option String)

/-- Effect of one operation on the persisted file. -/
def step (fs : FileState) : Op → FileState
  | .register a b c d w => (registerHandler fs w a b c d).2
  | .update i a b w => (updateHandler fs w i a b).2
  | .putPhoto i f w => (putPhotoHandler fs w i f).2
  | .remove i w => (deleteHandler fs w i).2
  | .listAll => (listHandler fs).2
  | .getOne i => (getOneHandler fs i).2
  | .search a b => (searchHandler fs a b).2

/-- Run a sequence of operations from a starting file state. -/
def run (fs : FileState) : List Op → FileState
  | [] => fs
  | op :: ops => run (step fs op) ops

/-- The ids of the stored records, in stored order, are strictly
increasing (the invariant maintained by every operation). -/
def idsIncreasing (l : List Record) : Prop :=
  List.Pairwise (· < ·) (l.map Record.id)

/-! Concrete sample records, used as stores in witness statements -/

/-- A record without a photo. -/
def recPlain : Record :=
  { id := 1, inventory_name := "Laptop", description := "",
    photo_filename := none, created_at := "t" }

/-- A record with a photo. -/
def recPhoto : Record :=
  { id := 1, inventory_name := "Cam", description := "nice",
    photo_filename := some "p.jpg", created_at := "t" }

/-- A record whose photo filename is the empty string — representable in
the persisted JSON file, and falsy under the JS truthiness test. -/
def recEmptyPhoto : Record :=
  { id := 1, inventory_name := "Laptop", description := "",
    photo_filename := some "", created_at := "t" }

/-- First record of a two-record sample store. -/
def recA : Record :=
  { id := 1, inventory_name := "A", description := "da",
    photo_filename := none, created_at := "t1" }

/-- Second record of a two-record sample store. -/
def recB : Record :=
  { id := 2, inventory_name := "B", description := "db",
    photo_filename := some "p.jpg", created_at := "t2" }

/-- A record with a large id. -/
def recOld : Record :=
  { id := 5, inventory_name := "Old", description := "",
    photo_filename := none, created_at := "t0" }

/-! Helper lemmas -/

theorem readInventory_stored (l : List Record) :
    readInventory (FileState.stored l) = l := rfl

theorem le_foldl_max (xs : List Int) (a : Int) : a ≤ xs.foldl max a := by
  induction xs generalizing a with
  | nil => exact le_refl a
  | cons c cs ih => exact le_trans (le_max_left a c) (ih (max a c))

theorem mem_le_foldl_max (xs : List Int) (a x : Int) (hx : x ∈ xs) :
    x ≤ xs.foldl max a := by
  induction xs generalizing a with
  | nil => cases hx
  | cons c cs ih =>
    rcases List.mem_cons.mp hx with rfl | h
    · exact le_trans (le_max_right a x) (le_foldl_max cs (max a x))
    · exact ih (max a c) h

theorem mem_le_maxIds (xs : List Int) (x : Int) (hx : x ∈ xs) :
    x ≤ maxIds xs := by
  cases xs with
  | nil => cases hx
  | cons c cs =>
    rcases List.mem_cons.mp hx with rfl | h
    · exact le_foldl_max cs x
    · exact mem_le_foldl_max cs c x h

theorem foldl_max_mem (xs : List Int) (a : Int) :
    xs.foldl max a = a ∨ xs.foldl max a ∈ xs := by
  induction xs generalizing a with
  | nil => exact Or.inl rfl
  | cons c cs ih =>
    simp only [List.foldl_cons]
    rcases ih (max a c) with h | h
    · rcases max_choice a c with hm | hm
      · exact Or.inl (by rw [h, hm])
      · exact Or.inr (by rw [h, hm]; exact List.mem_cons_self c cs)
    · exact Or.inr (List.mem_cons_of_mem c h)

theorem maxIds_mem (xs : List Int) (h : xs ≠ []) : maxIds xs ∈ xs := by
  cases xs with
  | nil => exact absurd rfl h
  | cons c cs =>
    show cs.foldl max c ∈ c :: cs
    rcases foldl_max_mem cs c with h1 | h1
    · rw [h1]; exact List.mem_cons_self c cs
    · exact List.mem_cons_of_mem c h1

theorem id_lt_getNextId (l : List Record) (r : Record) (hr : r ∈ l) :
    r.id < getNextId l := by
  have hne : l.isEmpty = false := by cases l with
    | nil => cases hr
    | cons a as => rfl
  have hle : r.id ≤ maxIds (l.map Record.id) :=
    mem_le_maxIds _ _ (List.mem_map_of_mem Record.id hr)
  simp only [getNextId, hne, Bool.false_eq_true, if_false]
  omega

theorem findPairById_eq_some (n : Int) (l : List Record) :
    ∀ (i : Nat) (r : Record), findPairById n l = some (i, r) →
      l[i]? = some r ∧ r.id = n := by
  induction l with
  | nil => intro i r h; simp [findPairById] at h
  | cons a as ih =>
    intro i r h
    simp only [findPairById] at h
    by_cases hbeq : (a.id == n) = true
    · rw [if_pos hbeq] at h
      have hpair : (0, a) = (i, r) := Option.some.inj h
      have hi : 0 = i := congrArg Prod.fst hpair
      have hr : a = r := congrArg Prod.snd hpair
      subst hi; subst hr
      exact ⟨by simp, beq_iff_eq.mp hbeq⟩
    · rw [if_neg hbeq, Option.map_eq_some'] at h
      obtain ⟨⟨j, r0⟩, hj, heq⟩ := h
      have hi : j + 1 = i := congrArg Prod.fst heq
      have hr : r0 = r := congrArg Prod.snd heq
      subst hi; subst hr
      have := ih j r0 hj
      simpa [List.getElem?_cons_succ] using this

theorem set_of_getElem? {α : Type} (xs : List α) :
    ∀ (i : Nat) (v : α), xs[i]? = some v → xs.set i v = xs := by
  induction xs with
  | nil => intro i v h; simp at h
  | cons a as ih =>
    intro i v h
    cases i with
    | zero =>
      simp only [List.getElem?_cons_zero, Option.some.injEq] at h
      simp [List.set, h]
    | succ j =>
      simp only [List.getElem?_cons_succ] at h
      simp [List.set, ih j v h]

theorem set_same_id_map (l : List Record) (i : Nat) (r r2 : Record)
    (hg : l[i]? = some r) (hid : r2.id = r.id) :
    (l.set i r2).map Record.id = l.map Record.id := by
  rw [List.map_set, hid]
  have : (l.map Record.id)[i]? = some r.id := by
    rw [List.getElem?_map, hg]; rfl
  exact set_of_getElem? _ _ _ this

theorem idsIncreasing_set_same_id (l : List Record) (i : Nat) (r r2 : Record)
    (hg : l[i]? = some r) (hid : r2.id = r.id)
    (h : idsIncreasing l) : idsIncreasing (l.set i r2) := by
  unfold idsIncreasing at *
  rw [set_same_id_map l i r r2 hg hid]
  exact h

theorem idsIncreasing_eraseIdx (l : List Record) (i : Nat)
    (h : idsIncreasing l) : idsIncreasing (l.eraseIdx i) := by
  unfold idsIncreasing at *
  exact h.sublist (List.Sublist.map Record.id (List.eraseIdx_sublist l i))

theorem idsIncreasing_append_next (l : List Record) (r : Record)
    (hid : r.id = getNextId l) (h : idsIncreasing l) :
    idsIncreasing (l ++ [r]) := by
  unfold idsIncreasing at *
  rw [List.map_append, List.pairwise_append]
  refine ⟨h, by simp, ?_⟩
  intro x hx y hy
  simp only [List.map_cons, List.map_nil, List.mem_singleton] at hy
  subst hy
  obtain ⟨r0, hr0, rfl⟩ := List.mem_map.mp hx
  rw [hid]
  exact id_lt_getNextId l r0 hr0

theorem step_preserves_idsIncreasing (fs : FileState) (op : Op)
    (h : idsIncreasing (readInventory fs)) :
    idsIncreasing (readInventory (step fs op)) := by
  cases op with
  | register a b c d w =>
    simp only [step, registerHandler]
    by_cases hname : truthyStr a = false
    · simpa [hname] using h
    · rw [if_neg hname]
      cases w with
      | false => simpa using h
      | true =>
        simp only [readInventory]
        exact idsIncreasing_append_next _ _ rfl h
  | update i a b w =>
    simp only [step, updateHandler]
    split
    · simpa using h
    · split
      · simpa using h
      · rename_i j r hf
        split
        · simp only [readInventory]
          obtain ⟨hg, _⟩ := findPairById_eq_some _ _ j r hf
          exact idsIncreasing_set_same_id _ j r _ hg rfl h
        · simpa using h
  | putPhoto i f w =>
    simp only [step, putPhotoHandler]
    split
    · simpa using h
    · split
      · simpa using h
      · split
        · simpa using h
        · rename_i j r hf
          split
          · simp only [readInventory]
            obtain ⟨hg, _⟩ := findPairById_eq_some _ _ j r hf
            exact idsIncreasing_set_same_id _ j r _ hg rfl h
          · simpa using h
  | remove i w =>
    simp only [step, deleteHandler]
    split
    · simpa using h
    · split
      · simpa using h
      · split
        · simp only [readInventory]
          exact idsIncreasing_eraseIdx _ _ h
        · simpa using h
  | listAll => simpa [step, listHandler] using h
  | getOne i =>
    simp only [step, getOneHandler]
    split
    · simpa using h
    · simpa using h
  | search a b =>
    simp only [step, searchHandler]
    split
    · simpa using h
    · split
      · simpa using h
      · simpa using h

theorem run_preserves_idsIncreasing (ops : List Op) :
    ∀ (fs : FileState), idsIncreasing (readInventory fs) →
      idsIncreasing (readInventory (run fs ops)) := by
  induction ops with
  | nil => intro fs h; exact h
  | cons op rest ih =>
    intro fs h
    exact ih (step fs op) (step_preserves_idsIncreasing fs op h)

theorem maximum_eq_maxIds (xs : List Int) (m : Int)
    (h : xs.maximum = (m : WithBot Int)) : maxIds xs = m := by
  have hmem : m ∈ xs ∧ ∀ a ∈ xs, a ≤ m := List.maximum_eq_coe_iff.mp h
  have hne : xs ≠ [] := by
    intro he
    subst he
    cases hmem.1
  have h1 : maxIds xs ≤ m := hmem.2 _ (maxIds_mem xs hne)
  have h2 : m ≤ maxIds xs := mem_le_maxIds xs m hmem.1
  omega

/-! Claims -/

/-- C1 (amended): starting from an empty store, after any sequence of
operations the ids of the stored records are strictly increasing in stored
order, hence pairwise distinct.  (The original claim's further statement
that a deleted id is never reassigned is false: see the counterexample,
where deleting the record holding the maximum id makes the next
registration reuse that id.) -/
theorem claim1_ids_strictly_increasing (fs0 : FileState) (ops : List Op)
    (h0 : readInventory fs0 = []) :
    List.Pairwise (· < ·) ((readInventory (run fs0 ops)).map Record.id) ∧
    ((readInventory (run fs0 ops)).map Record.id).Nodup := by
  have hinv : idsIncreasing (readInventory fs0) := by
    unfold idsIncreasing
    rw [h0]
    simp
  have h := run_preserves_idsIncreasing ops fs0 hinv
  exact ⟨h, h.imp ne_of_lt⟩

/-- Witness for C1: a concrete run of four operations from the empty
store keeps the stored ids strictly increasing and duplicate-free. -/
theorem claim1_witness :
    List.Pairwise (· < ·) ((readInventory (run FileState.absent
      [.register (some "Laptop") none none "t1" true,
       .register (some "Mouse") (some "usb") none "t2" true,
       .remove "1" true,
       .register (some "Screen") none (some "p.png") "t3" true])).map
         Record.id) ∧
    ((readInventory (run FileState.absent
      [.register (some "Laptop") none none "t1" true,
       .register (some "Mouse") (some "usb") none "t2" true,
       .remove "1" true,
       .register (some "Screen") none (some "p.png") "t3" true])).map
         Record.id).Nodup :=
  claim1_ids_strictly_increasing FileState.absent _ rfl

/-- Counterexample to C1 as stated: register two records (ids 1 and 2),
delete the record with id 2, and register again — the new registration is
assigned id 2, an id that had been deleted, because `getNextId` is
`max(existing ids) + 1`. -/
theorem claim1_counterexample :
    (readInventory (run (FileState.stored [])
      [.register (some "A") none none "t1" true,
       .register (some "B") none none "t2" true])).map Record.id = [1, 2] ∧
    (readInventory (run (FileState.stored [])
      [.register (some "A") none none "t1" true,
       .register (some "B") none none "t2" true,
       .remove "2" true])).map Record.id = [1] ∧
    (readInventory (run (FileState.stored [])
      [.register (some "A") none none "t1" true,
       .register (some "B") none none "t2" true,
       .remove "2" true,
       .register (some "C") none none "t3" true])).map Record.id = [1, 2] := by
  decide

/-- C8: loading the record collection never fails the caller — an absent
file and an unparsable file both read as the empty list, and a parsed
file reads as its records. -/
theorem claim8_read_never_fails :
    readInventory FileState.absent = [] ∧
    readInventory FileState.corrupt = [] ∧
    ∀ l, readInventory (FileState.stored l) = l :=
  ⟨rfl, rfl, fun _ => rfl⟩

/-- C10: the four read-only routes (`GET /inventory`, `GET /inventory/:id`,
`GET /inventory/:id/photo`, `POST /search`) leave the persisted file state
exactly unchanged, for every store, request and photo-directory state. -/
theorem claim10_read_ops_pure (fs : FileState) (pd : String → Bool)
    (idStr : String) (idF hp : Option String) :
    (listHandler fs).2 = fs ∧
    (getOneHandler fs idStr).2 = fs ∧
    (getPhotoHandler fs pd idStr).2 = fs ∧
    (searchHandler fs idF hp).2 = fs := by
  refine ⟨rfl, ?_, ?_, ?_⟩
  · unfold getOneHandler
    split <;> rfl
  · unfold getPhotoHandler
    split
    · rfl
    · split
      · rfl
      · split <;> rfl
  · unfold searchHandler
    split
    · rfl
    · split <;> rfl

/-- C3 (amended): an upload whose file exceeds the 5 MiB ceiling (with an
image MIME type) is rejected by the size limit, and an upload whose MIME
type is not an image is rejected by the `fileFilter`; but BOTH rejections
surface as the platform default 500 server error, not a 4xx.  The
dedicated multer error middleware — whose `LIMIT_FILE_SIZE` branch would
answer 400 "File too large. Maximum 5MB" — is registered before the
upload routes, and Express dispatches an error only to error-handling
layers strictly after the erroring layer, so the middleware never
receives either error and its 400 branch is dead code. -/
theorem claim3_upload_limits (size sz2 : Nat) (mt mt2 : String)
    (h1 : mimeIsImage mt = true)
    (h2 : 5 * 1024 * 1024 < size)
    (h3 : mimeIsImage mt2 = false) :
    checkUpload size mt = some UploadError.limitFileSize ∧
    checkUpload sz2 mt2 = some UploadError.onlyImages ∧
    uploadRejection UploadError.limitFileSize =
      (500, "Internal Server Error") ∧
    uploadRejection UploadError.onlyImages =
      (500, "Internal Server Error") ∧
    dispatchError layersAfterPhotoPut UploadError.limitFileSize =
      (500, "Internal Server Error") ∧
    dispatchError layersAfterPhotoPut UploadError.onlyImages =
      (500, "Internal Server Error") ∧
    multerErrorMiddleware UploadError.limitFileSize =
      some (400, "File too large. Maximum 5MB") := by
  refine ⟨?_, ?_, rfl, rfl, rfl, rfl, rfl⟩
  · simp [checkUpload, h1, h2]
  · simp [checkUpload, h3]

/-- Witness for C3: a 6 MiB PNG upload and a 10-byte `text/plain` upload
are both rejected and both answered with the default 500 on either upload
route, while the (unreachable) middleware branch carries the 400 "File
too large. Maximum 5MB" response. -/
theorem claim3_witness :
    checkUpload (6 * 1024 * 1024) "image/png" =
      some UploadError.limitFileSize ∧
    checkUpload 10 "text/plain" = some UploadError.onlyImages ∧
    uploadRejection UploadError.limitFileSize =
      (500, "Internal Server Error") ∧
    uploadRejection UploadError.onlyImages =
      (500, "Internal Server Error") ∧
    dispatchError layersAfterPhotoPut UploadError.limitFileSize =
      (500, "Internal Server Error") ∧
    dispatchError layersAfterPhotoPut UploadError.onlyImages =
      (500, "Internal Server Error") ∧
    multerErrorMiddleware UploadError.limitFileSize =
      some (400, "File too large. Maximum 5MB") :=
  claim3_upload_limits (6 * 1024 * 1024) 10 "image/png" "text/plain"
    (by decide) (by decide) (by decide)

/-- Counterexample to C3 as stated: a 6 MiB `image/png` upload triggers
the `LIMIT_FILE_SIZE` rejection but is answered 500, not 400 with the
"File too large" message (the middleware sits before the routes and is
never reached); and a 10-byte `text/plain` upload is rejected by the
`fileFilter` but likewise answered 500, which is no 4xx client error. -/
theorem claim3_counterexample :
    checkUpload (6 * 1024 * 1024) "image/png" =
      some UploadError.limitFileSize ∧
    (uploadRejection UploadError.limitFileSize).1 = 500 ∧
    ¬(uploadRejection UploadError.limitFileSize).1 = 400 ∧
    checkUpload 10 "text/plain" = some UploadError.onlyImages ∧
    (uploadRejection UploadError.onlyImages).1 = 500 ∧
    ¬(400 ≤ (uploadRejection UploadError.onlyImages).1 ∧
      (uploadRejection UploadError.onlyImages).1 < 500) := by
  decide

/-- C2: when the `writeInventory` call fails (`wok = false`), each of the
four mutating routes — register, update, photo replacement, delete —
responds 500 "Data save error" and leaves the persisted file state exactly
as it was (the in-memory mutation is discarded; the authoritative file was
never modified). -/
theorem claim2_write_failure_preserves_store (fs : FileState)
    (invName descr photoFile : Option String) (now idStr f : String)
    (n : Int) (i : Nat) (r : Record)
    (hname : truthyStr invName = true)
    (hp : jsParseInt idStr = some n)
    (hf : findPairById n (readInventory fs) = some (i, r)) :
    registerHandler fs false invName descr photoFile now =
      (.err 500 "Data save error", fs) ∧
    updateHandler fs false idStr invName descr =
      (.err 500 "Data save error", fs) ∧
    putPhotoHandler fs false idStr (some f) =
      (.err 500 "Data save error", fs) ∧
    deleteHandler fs false idStr = (.err 500 "Data save error", fs) := by
  refine ⟨?_, ?_, ?_, ?_⟩
  · simp [registerHandler, hname]
  · simp [updateHandler, hp, hf]
  · simp [putPhotoHandler, hp, hf]
  · simp [deleteHandler, hp, hf]

/-- Witness for C2: on the store holding the single record `recPlain`
(id 1), every mutating route with a failing write answers 500 and leaves
the store untouched. -/
theorem claim2_witness :
    registerHandler (FileState.stored [recPlain]) false (some "X") none
        none "t9" =
      (.err 500 "Data save error", FileState.stored [recPlain]) ∧
    updateHandler (FileState.stored [recPlain]) false "1" (some "X") none =
      (.err 500 "Data save error", FileState.stored [recPlain]) ∧
    putPhotoHandler (FileState.stored [recPlain]) false "1"
        (some "p.png") =
      (.err 500 "Data save error", FileState.stored [recPlain]) ∧
    deleteHandler (FileState.stored [recPlain]) false "1" =
      (.err 500 "Data save error", FileState.stored [recPlain]) :=
  claim2_write_failure_preserves_store (FileState.stored [recPlain])
    (some "X") none none "t9" "1" "p.png" 1 0 recPlain
    (by decide) (by decide) (by decide)

/-- C4: a registration with only `inventory_name` on an empty store
creates the record `{id = 1, description = "", photo_filename = null}` and
answers 201; a second registration is assigned id 2; and in general
`getNextId` yields 1 on the empty collection and `max(existing ids) + 1`
(expressed through `List.maximum`) otherwise. -/
theorem claim4_register_assigns_ids (fs : FileState) (s s2 now now2 : String)
    (l : List Record) (m : Int)
    (hempty : readInventory fs = [])
    (hs : truthyStr (some s) = true)
    (hs2 : truthyStr (some s2) = true)
    (hmax : (l.map Record.id).maximum = (m : WithBot Int)) :
    registerHandler fs true (some s) none none now =
      (.done 201 "Device registered successfully"
         { id := 1, inventory_name := s, description := "",
           photo_filename := none, created_at := now },
       .stored [{ id := 1, inventory_name := s, description := "",
                  photo_filename := none, created_at := now }]) ∧
    ((registerHandler (registerHandler fs true (some s) none none now).2
        true (some s2) none none now2).1.doneRec).map Record.id =
      some 2 ∧
    getNextId [] = 1 ∧
    getNextId l = m + 1 := by
  have hmx := maximum_eq_maxIds _ _ hmax
  have hne : l ≠ [] := by
    intro he
    subst he
    exact absurd hmax (by simp)
  have hie : l.isEmpty = false := by
    cases l with
    | nil => exact absurd rfl hne
    | cons a as => rfl
  have hmain : registerHandler fs true (some s) none none now =
      (.done 201 "Device registered successfully"
         { id := 1, inventory_name := s, description := "",
           photo_filename := none, created_at := now },
       .stored [{ id := 1, inventory_name := s, description := "",
                  photo_filename := none, created_at := now }]) := by
    simp [registerHandler, hs, hempty, getNextId]
  refine ⟨hmain, ?_, by decide, ?_⟩
  · rw [hmain]
    simp [registerHandler, hs2, getNextId, maxIds,
      readInventory_stored, HResult.doneRec]
  · simp only [getNextId, hie, Bool.false_eq_true, if_false, hmx]

/-- Witness for C4: registering "Laptop" on the empty store yields id 1
with empty description and no photo; a second registration yields id 2;
and `getNextId` on the store `[recOld]`, whose maximal id is 5, yields 6. -/
theorem claim4_witness :
    registerHandler FileState.absent true (some "Laptop") none none "t1" =
      (.done 201 "Device registered successfully"
         { id := 1, inventory_name := "Laptop", description := "",
           photo_filename := none, created_at := "t1" },
       .stored [{ id := 1, inventory_name := "Laptop", description := "",
                  photo_filename := none, created_at := "t1" }]) ∧
    ((registerHandler (registerHandler FileState.absent true (some "Laptop")
        none none "t1").2 true (some "Phone") none none "t2").1.doneRec).map
        Record.id = some 2 ∧
    getNextId [] = 1 ∧
    getNextId [recOld] = 5 + 1 :=
  claim4_register_assigns_ids FileState.absent "Laptop" "Phone" "t1" "t2"
    [recOld] 5 rfl (by decide) (by decide) (by decide)

/-- C5: on a successful update of an existing record, a body field
overwrites the stored field exactly when it is present (`Option.getD`:
the empty string included), an absent field leaves the stored field
untouched, the id, photo filename and creation time of the record are
unchanged, every other record is unchanged, the store keeps its length,
and with both fields absent the record is stored back identically. -/
theorem claim5_update_frame (fs : FileState) (idStr : String)
    (invName descr : Option String) (n : Int) (i : Nat) (r : Record)
    (hp : jsParseInt idStr = some n)
    (hf : findPairById n (readInventory fs) = some (i, r)) :
    ((readInventory (updateHandler fs true idStr invName descr).2)[i]?).map
        Record.inventory_name = some (invName.getD r.inventory_name) ∧
    ((readInventory (updateHandler fs true idStr invName descr).2)[i]?).map
        Record.description = some (descr.getD r.description) ∧
    ((readInventory (updateHandler fs true idStr invName descr).2)[i]?).map
        Record.id = some r.id ∧
    ((readInventory (updateHandler fs true idStr invName descr).2)[i]?).map
        Record.photo_filename = some r.photo_filename ∧
    ((readInventory (updateHandler fs true idStr invName descr).2)[i]?).map
        Record.created_at = some r.created_at ∧
    (∀ j, j ≠ i →
      (readInventory (updateHandler fs true idStr invName descr).2)[j]? =
        (readInventory fs)[j]?) ∧
    (invName = none → descr = none →
      (readInventory (updateHandler fs true idStr invName descr).2)[i]? =
        some r) ∧
    (readInventory (updateHandler fs true idStr invName descr).2).length =
      (readInventory fs).length := by
  obtain ⟨hg, hid⟩ := findPairById_eq_some n _ i r hf
  have hlen : i < (readInventory fs).length := (List.getElem?_eq_some.mp hg).1
  cases invName <;> cases descr <;>
    refine ⟨?_, ?_, ?_, ?_, ?_, ?_, ?_, ?_⟩ <;>
    first
    | (intro j hj
       simp [updateHandler, hp, hf, readInventory_stored,
         List.getElem?_set_ne (Ne.symm hj)])
    | (intro h1 h2
       exact Option.noConfusion h1)
    | (intro h1 h2
       exact Option.noConfusion h2)
    | (intro h1 h2
       simp [updateHandler, hp, hf, readInventory_stored,
         List.getElem?_set_self hlen])
    | simp [updateHandler, hp, hf, readInventory_stored,
        List.getElem?_set_self hlen]

/-- Witness for C5: updating only the name of the second of two records
(`recA`, `recB`) overwrites its name, keeps its description and id,
leaves the first record untouched, and keeps the store length. -/
theorem claim5_witness :
    ((readInventory (updateHandler (FileState.stored [recA, recB]) true "2"
        (some "B2") none).2)[1]?).map Record.inventory_name = some "B2" ∧
    ((readInventory (updateHandler (FileState.stored [recA, recB]) true "2"
        (some "B2") none).2)[1]?).map Record.description = some "db" ∧
    ((readInventory (updateHandler (FileState.stored [recA, recB]) true "2"
        (some "B2") none).2)[1]?).map Record.id = some 2 ∧
    (readInventory (updateHandler (FileState.stored [recA, recB]) true "2"
        (some "B2") none).2)[0]? = some recA ∧
    (readInventory (updateHandler (FileState.stored [recA, recB]) true "2"
        (some "B2") none).2).length = 2 := by
  have h := claim5_update_frame (FileState.stored [recA, recB]) "2"
    (some "B2") none 2 1 recB (by decide) (by decide)
  exact ⟨h.1, h.2.1, h.2.2.1, h.2.2.2.2.2.1 0 (by decide), h.2.2.2.2.2.2.2⟩

/-- C6 (amended): for every id string on which the platform integer parse
fails entirely (`parseInt` yields `NaN`, i.e. the string has no leading
integer numeral), GET/PUT/DELETE `/inventory/:id` and `POST /search` (with
a nonempty id) answer 404, the parse failure matching no stored id.  (The
original claim over all "non-numeric" strings is false: a string such as
`"1x"` is not a numeral yet parses to its numeric prefix and can match a
stored record — see the counterexample.) -/
theorem claim6_parse_failure_404 (fs : FileState) (w : Bool) (idStr : String)
    (invName descr hasPhoto : Option String) (f : String)
    (hnan : jsParseInt idStr = none)
    (hne : idStr ≠ "") :
    (getOneHandler fs idStr).1.statusCode = 404 ∧
    (updateHandler fs w idStr invName descr).1.statusCode = 404 ∧
    (putPhotoHandler fs w idStr (some f)).1.statusCode = 404 ∧
    (deleteHandler fs w idStr).1.statusCode = 404 ∧
    (searchHandler fs (some idStr) hasPhoto).1.statusCode = 404 := by
  have htr : truthyStr (some idStr) = true := by
    simp [truthyStr, hne]
  refine ⟨?_, ?_, ?_, ?_, ?_⟩ <;>
    simp [getOneHandler, updateHandler, putPhotoHandler, deleteHandler,
      searchHandler, findItem, hnan, htr, HResult.statusCode]

/-- Witness for C6: the id string "abc" has no leading numeral, and all
four routes answer 404 on the one-record store `[recPlain]`. -/
theorem claim6_witness :
    (getOneHandler (FileState.stored [recPlain]) "abc").1.statusCode =
      404 ∧
    (updateHandler (FileState.stored [recPlain]) true "abc" (some "B")
        none).1.statusCode = 404 ∧
    (putPhotoHandler (FileState.stored [recPlain]) true "abc"
        (some "p.png")).1.statusCode = 404 ∧
    (deleteHandler (FileState.stored [recPlain]) true "abc").1.statusCode =
      404 ∧
    (searchHandler (FileState.stored [recPlain]) (some "abc")
        none).1.statusCode = 404 :=
  claim6_parse_failure_404 (FileState.stored [recPlain]) true "abc"
    (some "B") none none "p.png" (by decide) (by decide)

/-- Counterexample to C6 as stated: `"1x"` is not a numeric string, yet
`parseInt("1x")` is 1, so on the store `[recPlain]` holding the record
with id 1, `GET /inventory/1x` answers 200, not 404. -/
theorem claim6_counterexample :
    jsParseInt "1x" = some 1 ∧
    (getOneHandler (FileState.stored [recPlain]) "1x").1.statusCode =
      200 := by
  decide

/-- C7: a search hitting a record is answered with the store unchanged;
the response description carries the photo-reference marker exactly when
`has_photo` is the literal string "true" and the record has a (truthy)
photo filename, and is the stored description otherwise; and a subsequent
GET of the same id still returns the original stored description. -/
theorem claim7_search_marker (fs : FileState) (idF hasPhoto : Option String)
    (r : Record)
    (hid : truthyStr idF = true)
    (hfind : findItem (readInventory fs) (idF.getD "") = some r) :
    (searchHandler fs idF hasPhoto).2 = fs ∧
    (searchHandler fs idF hasPhoto).1.itemDesc =
      some (if hasPhoto == some "true" && truthyStr r.photo_filename then
          r.description ++ "\n[Photo: /inventory/" ++ toString r.id ++
            "/photo]"
        else r.description) ∧
    (getOneHandler fs (idF.getD "")).1.itemDesc = some r.description := by
  refine ⟨?_, ?_, ?_⟩ <;>
    simp [searchHandler, getOneHandler, hid, hfind, HResult.itemDesc, toView]

/-- Witness for C7: searching id 1 with `has_photo="true"` on the store
`[recPhoto]`, whose record has photo "p.jpg" and description "nice",
appends the marker in the response only; the store is unchanged and a
subsequent GET shows the original description. -/
theorem claim7_witness :
    (searchHandler (FileState.stored [recPhoto]) (some "1")
        (some "true")).2 = FileState.stored [recPhoto] ∧
    (searchHandler (FileState.stored [recPhoto]) (some "1")
        (some "true")).1.itemDesc =
      some "nice\n[Photo: /inventory/1/photo]" ∧
    (getOneHandler (FileState.stored [recPhoto]) "1").1.itemDesc =
      some "nice" := by
  have h := claim7_search_marker (FileState.stored [recPhoto]) (some "1")
    (some "true") recPhoto (by decide) (by decide)
  exact ⟨h.1, by simpa [recPhoto] using h.2.1, h.2.2⟩

/-- C9 (amended): every single-record view answered by
`GET /inventory/:id` appears, with every field identical (the derived
`photo_url` included), in the array answered by `GET /inventory`; and its
`photo_url` is null exactly when its `photo_filename` is null/absent *or
the empty string* (the handlers test JavaScript truthiness, under which
`""` also yields a null `photo_url` — the original iff, which excluded
only null/absent, fails on the empty string; see the counterexample). -/
theorem claim9_get_list_agree (fs : FileState) (idStr : String)
    (v : ItemView)
    (h : (getOneHandler fs idStr).1.itemView = some v) :
    v ∈ (listHandler fs).1.listViews ∧
    (v.photo_url = none ↔
      (v.photo_filename = none ∨ v.photo_filename = some "")) := by
  unfold getOneHandler at h
  cases hfind : findItem (readInventory fs) idStr with
  | none =>
    rw [hfind] at h
    simp [HResult.itemView] at h
  | some r =>
    rw [hfind] at h
    simp only [HResult.itemView, Option.some.injEq] at h
    subst h
    constructor
    · have hmem : r ∈ readInventory fs := by
        unfold findItem at hfind
        cases hp : jsParseInt idStr with
        | none => rw [hp] at hfind; cases hfind
        | some n =>
          rw [hp] at hfind
          exact List.mem_of_find?_eq_some hfind
      simp only [listHandler, HResult.listViews]
      exact List.mem_map_of_mem toView hmem
    · cases hpf : r.photo_filename with
      | none => simp [toView, photoUrl, truthyStr, hpf]
      | some s =>
        by_cases hs : s = ""
        · subst hs
          simp [toView, photoUrl, truthyStr, hpf]
        · simp [toView, photoUrl, truthyStr, hpf, hs]

/-- Witness for C9: the view of `recPhoto` (photo "p.jpg") answered by the
single-record route appears identically in the list route's array, and its
photo URL is non-null, its photo filename being a nonempty string. -/
theorem claim9_witness :
    toView recPhoto ∈
      (listHandler (FileState.stored [recPhoto])).1.listViews ∧
    ((toView recPhoto).photo_url = none ↔
      ((toView recPhoto).photo_filename = none ∨
       (toView recPhoto).photo_filename = some "")) :=
  claim9_get_list_agree (FileState.stored [recPhoto]) "1" (toView recPhoto)
    (by decide)

/-- Counterexample to C9 as stated: the stored record `recEmptyPhoto`,
whose `photo_filename` is the empty string (present, not null), is
answered with a null `photo_url` by `GET /inventory/:id`, because the
handler tests JS truthiness — refuting "photo_url is null iff
photo_filename is null/absent". -/
theorem claim9_counterexample :
    (((getOneHandler (FileState.stored [recEmptyPhoto])
        "1").1.itemView).map ItemView.photo_url = some none) ∧
    (((getOneHandler (FileState.stored [recEmptyPhoto])
        "1").1.itemView).map ItemView.photo_filename = some (some "")) := by
  decide

end Inventory
